import Mathlib

/-!
Verification of the realm discovery and selection core of the explorer
repository (`kernel/packages/shared/dao/index.ts`).

The data model (`Layer`, `Candidate`, `Realm`, `PingResult`, the status
payload) follows the record shapes declared in `dao/types.ts` and described
in the specification, since only their uses appear under `src/`.  All
operations (`layerScore`, `islandsScore`, `ping`, `pickCatalystRealm`,
`getRealmFromString`, `changeRealm`, `changeToCrowdedRealm`,
`observeRealmChange`) are translated directly from `dao/index.ts`.

Numbers: elapsed times and stored scores are JS numbers compared with the
usual arithmetic; they are embedded as rationals.  The two scoring
functions use the real cosine, so they land in `ℝ`.  User counts are
naturals.  Fallible operations return `Option` / `Except`.
-/

namespace Dao

/-- Connection status of a probed catalyst server (`ServerConnectionStatus`
in `dao/types.ts`, used throughout `dao/index.ts`). -/
inductive ServerConnectionStatus where
  | OK
  | UNREACHABLE
deriving DecidableEq

/-- Modelled from the spec: the `Layer` record of `dao/types.ts` (the file is
not under `src/`): `{name, usersCount, maxUsers (default 50), usersParcels:
optional list of 2D positions}`. -/
structure Layer where
  name : String
  usersCount : ℕ
  maxUsers : ℕ := 50
  usersParcels : Option (List (ℤ × ℤ)) := none
deriving DecidableEq

/-- The two shapes of the `Candidate` tagged union (`LayerBasedCandidate` /
`IslandsBasedCandidate`). -/
inductive CandidateKind where
  | layerBased (layer : Layer)
  | islandsBased (usersCount : ℕ)
deriving DecidableEq

/-- Modelled from the spec: the `Candidate` base record of `dao/types.ts`
(not under `src/`), with the discriminating `kind` and the stored `score`
appended, exactly the fields `dao/index.ts` reads. -/
structure Candidate where
  catalystName : String
  domain : String
  status : ServerConnectionStatus
  elapsed : ℚ
  lighthouseVersion : String
  catalystVersion : String
  kind : CandidateKind
  score : ℚ
deriving DecidableEq

/-- The published selection result (`Realm` in `dao/types.ts`): the layer
name is present exactly for layer-based candidates. -/
structure Realm where
  catalystName : String
  domain : String
  layer : Option String
  lighthouseVersion : String
deriving DecidableEq

/-- Modelled from the spec: the parsed body of a 200 status response,
`{name, version, env: {catalystVersion}, layers?, usersCount?}` (§6 of the
spec; the TS type is not under `src/`). -/
structure StatusPayload where
  name : String
  version : String
  catalystVersion : String
  layers : Option (List Layer) := none
  usersCount : Option ℕ := none
deriving DecidableEq

/-- `PingResult` of `dao/types.ts`: all three fields optional, filled in
according to how the probe went. -/
structure PingResult where
  status : Option ServerConnectionStatus := none
  elapsed : Option ℤ := none
  result : Option StatusPayload := none
deriving DecidableEq

/-- Outcome of the underlying `XMLHttpRequest` in `ping`: either `send`
throws synchronously, or the request reaches `DONE` with an HTTP status, a
measured elapsed time and a body whose `JSON.parse` result is `some`
payload or `none` on a parse error. -/
inductive XhrOutcome where
  | sendFailure
  | done (status : ℕ) (elapsed : ℤ) (body : Option StatusPayload)

/-- `ping` (dao/index.ts:66): classifies the request outcome.  `send`
throwing or a non-200 status resolve to `UNREACHABLE`; a 200 body that
fails to parse resolves to the empty result (the `catch` branch); a parsed
200 body resolves to `OK` with the elapsed time and payload. -/
def ping (outcome : XhrOutcome) : PingResult :=
  match outcome with
  | .sendFailure => { status := some .UNREACHABLE }
  | .done status elapsed body =>
      if status ≠ 200 then { status := some .UNREACHABLE }
      else
        match body with
        | some payload => { status := some .OK, elapsed := some elapsed, result := some payload }
        | none => {}

/-- The constant `v = 50` of the scoring functions (dao/index.ts:37). -/
noncomputable def v : ℝ := 50

/-- `layerScore` (dao/index.ts:39): `-v` for an empty layer, `-10*v` for a
full one, otherwise a cosine bump over the occupancy. -/
noncomputable def layerScore (l : Layer) : ℝ :=
  if l.usersCount = 0 then -v
  else if l.maxUsers ≤ l.usersCount then -10 * v
  else
    v + v * Real.cos (-(Real.pi / 1.8) +
      Real.pi / (0.67 * (if l.maxUsers = 0 then (50 : ℝ) else (l.maxUsers : ℝ))) * l.usersCount)

/-- `islandsScore` (dao/index.ts:58): `-v + 1` when empty, otherwise
`100 + usersCount`. -/
noncomputable def islandsScore (usersCount : ℕ) : ℝ :=
  if usersCount = 0 then -v + 1
  else 100 + usersCount

/-- `candidateUsers` (dao/index.ts:232). -/
def candidateUsers (c : Candidate) : ℕ :=
  match c.kind with
  | .layerBased l => l.usersCount
  | .islandsBased u => u

/-- `candidateToRealm` (dao/index.ts:315). -/
def candidateToRealm (c : Candidate) : Realm :=
  { catalystName := c.catalystName
    domain := c.domain
    lighthouseVersion := c.lighthouseVersion
    layer :=
      match c.kind with
      | .layerBased l => some l.name
      | .islandsBased _ => none }

/-- The `usersByDomain` table of `pickCatalystRealm` (dao/index.ts:237):
sum of the user counts of every candidate sharing the domain. -/
def usersByDomain (candidates : List Candidate) (domain : String) : ℕ :=
  ((candidates.filter fun c => c.domain == domain).map candidateUsers).sum

/-- The selection filter of `pickCatalystRealm` (dao/index.ts:249):
connection `OK`, and for layer-based candidates a non-full layer. -/
def passesFilter (c : Candidate) : Bool :=
  c.status == .OK &&
    (match c.kind with
     | .islandsBased _ => true
     | .layerBased l => decide (l.usersCount < l.maxUsers))

/-- `Math.abs` on the rationals. -/
def absQ (q : ℚ) : ℚ := if q < 0 then -q else q

/-- The comparator of `pickCatalystRealm` (dao/index.ts:254): elapsed
difference when its magnitude exceeds 1500, else score difference when
non-zero, else per-domain user sum difference when non-zero, else elapsed
difference. -/
def compareCandidates (candidates : List Candidate) (c1 c2 : Candidate) : ℚ :=
  let elapsedDiff := c1.elapsed - c2.elapsed
  let usersDiff : ℚ :=
    (usersByDomain candidates c1.domain : ℚ) - (usersByDomain candidates c2.domain : ℚ)
  let scoreDiff := c2.score - c1.score
  if 1500 < absQ elapsedDiff then elapsedDiff
  else if scoreDiff ≠ 0 then scoreDiff
  else if usersDiff ≠ 0 then usersDiff
  else elapsedDiff

/-- The filtered and sorted candidate list of `pickCatalystRealm`
(dao/index.ts:247). -/
def sortedCandidates (candidates : List Candidate) : List Candidate :=
  (candidates.filter passesFilter).mergeSort
    fun c1 c2 => decide (compareCandidates candidates c1 c2 ≤ 0)

/-- How `pickCatalystRealm` fails: the explicit `No available realm found!`
throw (dao/index.ts:269), or the `TypeError` raised by building a realm
from `sorted[0]` when `sorted` is empty because `candidates` was. -/
inductive PickError where
  | noRealmAvailable
  | undefinedCandidate
deriving DecidableEq

/-- `pickCatalystRealm` (dao/index.ts:236): filter, sort, take the head. -/
def pickCatalystRealm (candidates : List Candidate) : Except PickError Realm :=
  let sorted := sortedCandidates candidates
  if sorted.isEmpty && !candidates.isEmpty then .error .noRealmAvailable
  else
    match sorted with
    | [] => .error .undefinedCandidate
    | c :: _ => .ok (candidateToRealm c)

/-- The JS `realmString.split('-')` of `getRealmFromString`
(dao/index.ts:307), on character lists: split at every `'-'`. -/
def splitDashChars : List Char → List (List Char)
  | [] => [[]]
  | ch :: rest =>
      if ch = '-' then [] :: splitDashChars rest
      else
        match splitDashChars rest with
        | [] => [[ch]]
        | s :: t => (ch :: s) :: t

/-- `realmString.split('-')` on strings. -/
def splitDash (s : String) : List String :=
  (splitDashChars s.data).map String.mk

/-- `realmForLayer` (dao/index.ts:329): the realm of the first layer-based
candidate with the given catalyst name and layer name. -/
def realmForLayer (name layerName : String) (candidates : List Candidate) : Option Realm :=
  (candidates.find? fun c =>
      match c.kind with
      | .layerBased l => c.catalystName == name && l.name == layerName
      | .islandsBased _ => false).map candidateToRealm

/-- `realmFor` (dao/index.ts:336): the realm of the first islands-based
candidate with the given catalyst name. -/
def realmFor (name : String) (candidates : List Candidate) : Option Realm :=
  (candidates.find? fun c =>
      match c.kind with
      | .layerBased _ => false
      | .islandsBased _ => c.catalystName == name).map candidateToRealm

/-- `getRealmFromString` (dao/index.ts:306): a two-part string looks up a
layer-based candidate, anything else looks up an islands-based candidate by
the first segment. -/
def getRealmFromString (realmString : String) (candidates : List Candidate) : Option Realm :=
  let parts := splitDash realmString
  if parts.length = 2 then realmForLayer (parts.getD 0 "") (parts.getD 1 "") candidates
  else realmFor (parts.getD 0 "") candidates

/-- Modelled from the spec: `realmToString` (`dao/utils/realmToString.ts`,
not under `src/`): `"<catalystName>"` for an islands-based realm,
`"<catalystName>-<layerName>"` for a layer-based one (§6 of the spec). -/
def realmToString (r : Realm) : String :=
  match r.layer with
  | some layerName => r.catalystName ++ "-" ++ layerName
  | none => r.catalystName

/-- `changeRealm` (dao/index.ts:341) as a function of the current candidate
list: first component the returned realm, second the dispatched one (the
store dispatch happens exactly when a realm was found). -/
def changeRealm (realmString : String) (candidates : List Candidate) :
    Option Realm × Option Realm :=
  match getRealmFromString realmString candidates with
  | some realm => (some realm, some realm)
  | none => (none, none)

/-- Modelled from the spec: `countParcelsCloseTo`
(`shared/comms/interface/utils`, not under `src/`): the number of positions
of `parcels` lying within `radius` grid units of `origin`. -/
def countParcelsCloseTo (origin : ℤ × ℤ) (parcels : List (ℤ × ℤ)) (radius : ℤ) : ℕ :=
  (parcels.filter fun p =>
    decide ((p.1 - origin.1) ^ 2 + (p.2 - origin.2) ^ 2 ≤ radius ^ 2)).length

/-- The candidate filter of `changeToCrowdedRealm` (dao/index.ts:368):
layer-based, a known non-empty `usersParcels` list, remaining capacity. -/
def isCrowdedCandidate (c : Candidate) : Bool :=
  match c.kind with
  | .layerBased l =>
      (match l.usersParcels with
       | some parcels => !parcels.isEmpty
       | none => false) && decide (l.usersCount < l.maxUsers)
  | .islandsBased _ => false

/-- The per-candidate people count of `changeToCrowdedRealm`
(dao/index.ts:378): parcels within radius 4 of the player, minus one when
the candidate is the player's current realm (same catalyst name and layer
name). -/
def closePeopleOf (currentRealm : Realm) (currentPosition : ℤ × ℤ) (c : Candidate) : ℤ :=
  match c.kind with
  | .layerBased l =>
      match l.usersParcels with
      | some parcels =>
          (countParcelsCloseTo currentPosition parcels 4 : ℤ) -
            (if c.catalystName = currentRealm.catalystName ∧ currentRealm.layer = some l.name
             then 1 else 0)
      | none => 0
  | .islandsBased _ => 0

/-- The accumulator of `changeToCrowdedRealm` (`RealmPeople`,
dao/index.ts:363). -/
structure RealmPeople where
  realm : Realm
  closePeople : ℤ
deriving DecidableEq

/-- One iteration of the `forEach` of `changeToCrowdedRealm`
(dao/index.ts:375): replace the accumulator exactly when the candidate's
count strictly exceeds the best seen so far. -/
def crowdedStep (currentRealm : Realm) (currentPosition : ℤ × ℤ)
    (acc : RealmPeople) (c : Candidate) : RealmPeople :=
  match c.kind with
  | .layerBased l =>
      match l.usersParcels with
      | some _ =>
          let n := closePeopleOf currentRealm currentPosition c
          if acc.closePeople < n then ⟨candidateToRealm c, n⟩ else acc
      | none => acc
  | .islandsBased _ => acc

/-- `changeToCrowdedRealm` (dao/index.ts:353) as a function of the fresh
candidate list, the current realm and the player's grid position: first
component the returned pair, second the dispatched realm (`none` when
nothing is published). -/
def changeToCrowdedRealm (candidates : List Candidate) (currentRealm : Realm)
    (currentPosition : ℤ × ℤ) : (Bool × Realm) × Option Realm :=
  let crowdedRealm := (candidates.filter isCrowdedCandidate).foldl
    (crowdedStep currentRealm currentPosition) ⟨currentRealm, 0⟩
  if crowdedRealm.realm = currentRealm then ((false, currentRealm), none)
  else ((true, crowdedRealm.realm), some crowdedRealm.realm)

/-- The maximum close-people count reached by the scan of
`changeToCrowdedRealm`, baseline 0. -/
def crowdedBestCount (candidates : List Candidate) (currentRealm : Realm)
    (currentPosition : ℤ × ℤ) : ℤ :=
  (candidates.filter isCrowdedCandidate).foldl
    (fun m c => max m (closePeopleOf currentRealm currentPosition c)) 0

/-- The migration rule in the words of the specification sentence (for
comparison with `changeToCrowdedRealm`): among the considered candidates,
the first one holding the maximum close-people count wins whenever its
realm differs structurally from the current one. -/
def changeToCrowdedRealmClaimed (candidates : List Candidate) (currentRealm : Realm)
    (currentPosition : ℤ × ℤ) : (Bool × Realm) × Option Realm :=
  let considered := candidates.filter isCrowdedCandidate
  match (considered.map (closePeopleOf currentRealm currentPosition)).max? with
  | none => ((false, currentRealm), none)
  | some m =>
      match considered.find? fun c =>
          decide (closePeopleOf currentRealm currentPosition c = m) with
      | none => ((false, currentRealm), none)
      | some c =>
          if candidateToRealm c = currentRealm then ((false, currentRealm), none)
          else ((true, candidateToRealm c), some (candidateToRealm c))

/-- The body of the subscription installed by `observeRealmChange`
(dao/index.ts:437), for one state-change notification: first component the
new remembered realm (always the store's current value), second the
listener invocation `(previousRealm, currentRealm)` when one happens. -/
def observeStep (previousRealm : Option Realm) (storeRealm : Option Realm) :
    Option Realm × Option (Option Realm × Realm) :=
  (storeRealm,
    match storeRealm with
    | some r => if previousRealm = some r then none else some (previousRealm, r)
    | none => none)

/-! Concrete sample data used to exercise the theorems below. -/

/-- Sample islands-based candidate with low latency. -/
def cFast : Candidate :=
  { catalystName := "fast", domain := "dF", status := .OK, elapsed := 100,
    lighthouseVersion := "1.0", catalystVersion := "2.0",
    kind := .islandsBased 1, score := 101 }

/-- Sample islands-based candidate with high latency. -/
def cSlow : Candidate :=
  { catalystName := "slow", domain := "dS", status := .OK, elapsed := 2000,
    lighthouseVersion := "1.0", catalystVersion := "2.0",
    kind := .islandsBased 2, score := 102 }

/-- Sample islands-based candidate that passes the selection filter. -/
def cSolo : Candidate :=
  { catalystName := "solo", domain := "dO", status := .OK, elapsed := 100,
    lighthouseVersion := "1.0", catalystVersion := "2.0",
    kind := .islandsBased 5, score := 105 }

/-- Sample layer-based candidate whose layer is full. -/
def cFullLayer : Candidate :=
  { catalystName := "full", domain := "dL", status := .OK, elapsed := 50,
    lighthouseVersion := "1.0", catalystVersion := "2.0",
    kind := .layerBased { name := "L2", usersCount := 50, maxUsers := 50 }, score := 9000 }

/-- Sample islands-based candidate whose catalyst name contains a dash. -/
def hyphenCandidate : Candidate :=
  { catalystName := "a-b", domain := "dH", status := .OK, elapsed := 0,
    lighthouseVersion := "1.0", catalystVersion := "2.0",
    kind := .islandsBased 3, score := 103 }

/-- Sample islands-based candidate whose catalyst name is dash-free. -/
def plainCandidate : Candidate :=
  { catalystName := "plain", domain := "dP", status := .OK, elapsed := 0,
    lighthouseVersion := "1.0", catalystVersion := "2.0",
    kind := .islandsBased 2, score := 102 }

/-- Sample layer-based candidate for the crowded-realm scenario: users known
but all far from the origin, so its close-people count is 0. -/
def c6Candidate : Candidate :=
  { catalystName := "other", domain := "d1", status := .OK, elapsed := 0,
    lighthouseVersion := "1.0", catalystVersion := "2.0",
    kind := .layerBased { name := "L", usersCount := 1, maxUsers := 50,
                          usersParcels := some [(100, 100)] },
    score := 0 }

/-- Current realm of the crowded-realm scenario, distinct from
`c6Candidate`'s realm. -/
def c6CurrentRealm : Realm :=
  { catalystName := "cur", domain := "d0", layer := none, lighthouseVersion := "1.0" }

/-! Theorems. -/

/-- `Math.abs` as embedded agrees with the mathematical absolute value. -/
theorem absQ_eq_abs (q : ℚ) : absQ q = |q| := by
  unfold absQ
  rcases lt_or_le q 0 with h | h
  · rw [if_pos h, abs_of_neg h]
  · rw [if_neg (not_lt.mpr h), abs_of_nonneg h]

/-- C4: `layerScore` returns `-v` on an empty layer, `-10*v` on a full one,
and otherwise the cosine bump `v + v*cos(-π/1.8 + (π/(0.67*maxUsers))*usersCount)`,
which is strictly greater than `-10*v` for every occupancy in `[1, maxUsers-1]`. -/
theorem layerScore_spec (l : Layer) :
    (l.usersCount = 0 → layerScore l = -v) ∧
    (l.usersCount ≠ 0 → l.maxUsers ≤ l.usersCount → layerScore l = -10 * v) ∧
    (1 ≤ l.usersCount → l.usersCount < l.maxUsers →
      layerScore l =
        v + v * Real.cos (-(Real.pi / 1.8) +
          Real.pi / (0.67 * (l.maxUsers : ℝ)) * (l.usersCount : ℝ)) ∧
      -10 * v < layerScore l) := by
  refine ⟨fun h0 => by simp [layerScore, h0], fun h0 hge => by simp [layerScore, h0, hge],
    fun h1 h2 => ?_⟩
  have hne : l.usersCount ≠ 0 := by omega
  have hnle : ¬ l.maxUsers ≤ l.usersCount := by omega
  have hm0 : l.maxUsers ≠ 0 := by omega
  have heq : layerScore l =
      v + v * Real.cos (-(Real.pi / 1.8) +
        Real.pi / (0.67 * (l.maxUsers : ℝ)) * (l.usersCount : ℝ)) := by
    simp [layerScore, hne, hnle, hm0]
  refine ⟨heq, ?_⟩
  rw [heq]
  have hcos := Real.neg_one_le_cos (-(Real.pi / 1.8) +
    Real.pi / (0.67 * (l.maxUsers : ℝ)) * (l.usersCount : ℝ))
  have hv : v = 50 := rfl
  rw [hv]
  linarith

/-- Witness for `layerScore_spec` at concrete layers: an empty layer scores
`-v` and a mid-occupancy layer scores above `-10*v`. -/
theorem layerScore_spec_witness :
    layerScore { name := "E", usersCount := 0 } = -v ∧
    -10 * v < layerScore { name := "M", usersCount := 10 } :=
  ⟨(layerScore_spec { name := "E", usersCount := 0 }).1 rfl,
    ((layerScore_spec { name := "M", usersCount := 10 }).2.2 (by decide) (by decide)).2⟩

/-- C5: `islandsScore 0 = -v + 1`, strictly above the empty-layer score `-v`;
`islandsScore u = 100 + u` for `u ≥ 1`; and `islandsScore` is strictly
increasing over all `u ≥ 0`. -/
theorem islandsScore_spec :
    (islandsScore 0 = -v + 1 ∧ ∀ l : Layer, l.usersCount = 0 → layerScore l < islandsScore 0) ∧
    (∀ u : ℕ, 1 ≤ u → islandsScore u = 100 + (u : ℝ)) ∧
    (∀ u : ℕ, islandsScore u < islandsScore (u + 1)) := by
  have hv : v = 50 := rfl
  refine ⟨⟨by simp [islandsScore], fun l h0 => ?_⟩, fun u hu => ?_, fun u => ?_⟩
  · have h1 : layerScore l = -v := by simp [layerScore, h0]
    have h2 : islandsScore 0 = -v + 1 := by simp [islandsScore]
    rw [h1, h2]
    linarith
  · have : u ≠ 0 := by omega
    simp [islandsScore, this]
  · rcases Nat.eq_zero_or_pos u with h | h
    · subst h
      have h0 : islandsScore 0 = -v + 1 := by simp [islandsScore]
      have h1 : islandsScore 1 = 100 + ((1 : ℕ) : ℝ) := by simp [islandsScore]
      rw [h0, h1, hv]
      norm_num
    · have hne : u ≠ 0 := by omega
      have h1 : islandsScore u = 100 + (u : ℝ) := by simp [islandsScore, hne]
      have h2 : islandsScore (u + 1) = 100 + ((u + 1 : ℕ) : ℝ) := by simp [islandsScore]
      rw [h1, h2]
      push_cast
      linarith

/-- Witness for `islandsScore_spec`: the populated case at `u = 5` and the
empty-islands versus empty-layer comparison at a concrete layer. -/
theorem islandsScore_spec_witness :
    islandsScore 5 = 100 + ((5 : ℕ) : ℝ) ∧
    layerScore { name := "E", usersCount := 0 } < islandsScore 0 :=
  ⟨islandsScore_spec.2.1 5 (by decide), islandsScore_spec.1.2 { name := "E", usersCount := 0 } rfl⟩

/-- C9: `ping` always resolves: `send` failures and non-200 responses give
`{status: UNREACHABLE}`, a 200 body that fails to parse gives the empty
result, a parsed 200 body gives `{status: OK}` with elapsed time and
payload — and every outcome lands in one of these three shapes. -/
theorem ping_spec :
    ping .sendFailure = { status := some .UNREACHABLE } ∧
    (∀ s t b, s ≠ 200 → ping (.done s t b) = { status := some .UNREACHABLE }) ∧
    (∀ t, ping (.done 200 t none) = {}) ∧
    (∀ t p, ping (.done 200 t (some p)) =
      { status := some .OK, elapsed := some t, result := some p }) ∧
    (∀ o, ping o = { status := some .UNREACHABLE } ∨ ping o = {} ∨
      ∃ t p, ping o = { status := some .OK, elapsed := some t, result := some p }) := by
  refine ⟨rfl, fun s t b hs => by simp [ping, hs], fun t => rfl, fun t p => rfl, fun o => ?_⟩
  cases o with
  | sendFailure => exact Or.inl rfl
  | done s t b =>
    by_cases hs : s = 200
    · subst hs
      cases b with
      | none => exact Or.inr (Or.inl rfl)
      | some p => exact Or.inr (Or.inr ⟨t, p, rfl⟩)
    · exact Or.inl (by simp [ping, hs])

/-- Witness for `ping_spec`: a 404 response resolves to `UNREACHABLE`. -/
theorem ping_spec_witness :
    ping (.done 404 7 none) = { status := some .UNREACHABLE } :=
  ping_spec.2.1 404 7 none (by decide)

/-- C7: one notification of the subscription installed by
`observeRealmChange` always remembers the store's current value, fires the
listener with `(previous, current)` exactly when the current realm is
present and differs structurally from the previously observed value, and
stays silent on a structurally equal republish or an absent realm. -/
theorem observeRealmChange_spec (previous now : Option Realm) :
    (observeStep previous now).1 = now ∧
    (∀ r, now = some r → previous ≠ some r →
      (observeStep previous now).2 = some (previous, r)) ∧
    (∀ r, now = some r → previous = some r → (observeStep previous now).2 = none) ∧
    (now = none → (observeStep previous now).2 = none) := by
  refine ⟨rfl, fun r hn hne => ?_, fun r hn he => ?_, fun hn => ?_⟩
  · subst hn
    simp [observeStep, hne]
  · subst hn
    simp [observeStep, he]
  · subst hn
    rfl

/-- Witness for `observeRealmChange_spec`: the first publication of a realm
(previously none observed) fires the listener. -/
theorem observeRealmChange_spec_witness :
    (observeStep none (some c6CurrentRealm)).2 = some (none, c6CurrentRealm) :=
  (observeRealmChange_spec none (some c6CurrentRealm)).2.1 c6CurrentRealm rfl (by simp)

/-- C10: `changeRealm` is atomic on failure: when the realm string matches
no candidate it returns `undefined` and dispatches nothing, and it
dispatches exactly the realm it returns when a match exists; a two-part
string matches layer-based candidates by catalyst and layer name, any
other string matches islands-based candidates by its first segment. -/
theorem changeRealm_spec (realmString : String) (candidates : List Candidate) :
    (getRealmFromString realmString candidates = none →
      changeRealm realmString candidates = (none, none)) ∧
    (∀ r, getRealmFromString realmString candidates = some r →
      changeRealm realmString candidates = (some r, some r)) ∧
    ((splitDash realmString).length = 2 →
      (getRealmFromString realmString candidates = none ↔
        ∀ c ∈ candidates, ∀ l, c.kind = .layerBased l →
          ¬(c.catalystName = (splitDash realmString).getD 0 "" ∧
            l.name = (splitDash realmString).getD 1 ""))) ∧
    ((splitDash realmString).length ≠ 2 →
      (getRealmFromString realmString candidates = none ↔
        ∀ c ∈ candidates, ∀ u, c.kind = .islandsBased u →
          c.catalystName ≠ (splitDash realmString).getD 0 "")) := by
  refine ⟨fun h => by simp [changeRealm, h], fun r h => by simp [changeRealm, h],
    fun h2 => ?_, fun h2 => ?_⟩
  · have hif : getRealmFromString realmString candidates =
        realmForLayer ((splitDash realmString).getD 0 "") ((splitDash realmString).getD 1 "")
          candidates := by
      simp [getRealmFromString, h2]
    rw [hif, realmForLayer, Option.map_eq_none', List.find?_eq_none]
    constructor
    · intro hall c hc l hkl hcontra
      refine hall c hc ?_
      simp only [hkl]
      simp [hcontra.1, hcontra.2]
    · intro hall c hc
      cases hk : c.kind with
      | islandsBased u => simp only [hk]; simp
      | layerBased l =>
        have hnc := hall c hc l hk
        simp only [hk, Bool.and_eq_true, beq_iff_eq]
        intro hcontra
        exact hnc ⟨hcontra.1, hcontra.2⟩
  · have hif : getRealmFromString realmString candidates =
        realmFor ((splitDash realmString).getD 0 "") candidates := by
      simp [getRealmFromString, h2]
    rw [hif, realmFor, Option.map_eq_none', List.find?_eq_none]
    constructor
    · intro hall c hc u hku hcontra
      refine hall c hc ?_
      simp only [hku]
      simp [hcontra]
    · intro hall c hc
      cases hk : c.kind with
      | layerBased l => simp only [hk]; simp
      | islandsBased u =>
        have hnc := hall c hc u hk
        simp only [hk, beq_iff_eq]
        exact hnc

/-- Witness for `changeRealm_spec`: a string matching no candidate returns
`undefined` and dispatches nothing. -/
theorem changeRealm_spec_witness :
    changeRealm "nowhere" [] = (none, none) :=
  (changeRealm_spec "nowhere" []).1 (by decide)

/-- C1: the comparator of `pickCatalystRealm` cascades through elapsed time
(when the gap exceeds 1500 ms), score (descending, via `score(c2) - score(c1)`),
per-domain user sum (ascending), and elapsed time again, and the selected
realm is built from the head of the list sorted by it. -/
theorem pickCatalystRealm_comparator_spec (candidates : List Candidate)
    (c1 c2 : Candidate) (_h1 : passesFilter c1 = true) (_h2 : passesFilter c2 = true) :
    (1500 < absQ (c1.elapsed - c2.elapsed) →
      compareCandidates candidates c1 c2 = c1.elapsed - c2.elapsed) ∧
    (absQ (c1.elapsed - c2.elapsed) ≤ 1500 → c1.score ≠ c2.score →
      compareCandidates candidates c1 c2 = c2.score - c1.score) ∧
    (absQ (c1.elapsed - c2.elapsed) ≤ 1500 → c1.score = c2.score →
      usersByDomain candidates c1.domain ≠ usersByDomain candidates c2.domain →
      compareCandidates candidates c1 c2 =
        (usersByDomain candidates c1.domain : ℚ) - (usersByDomain candidates c2.domain : ℚ)) ∧
    (absQ (c1.elapsed - c2.elapsed) ≤ 1500 → c1.score = c2.score →
      usersByDomain candidates c1.domain = usersByDomain candidates c2.domain →
      compareCandidates candidates c1 c2 = c1.elapsed - c2.elapsed) ∧
    (∀ c rest, sortedCandidates candidates = c :: rest →
      pickCatalystRealm candidates = .ok (candidateToRealm c)) := by
  refine ⟨fun hgap => by simp [compareCandidates, hgap], fun hle hsc => ?_, fun hle hsc hus => ?_,
    fun hle hsc hus => ?_, fun c rest hs => ?_⟩
  · have hnlt : ¬ 1500 < absQ (c1.elapsed - c2.elapsed) := not_lt.mpr hle
    have hsd : c2.score - c1.score ≠ 0 := sub_ne_zero.mpr (Ne.symm hsc)
    simp [compareCandidates, hnlt, hsd]
  · have hnlt : ¬ 1500 < absQ (c1.elapsed - c2.elapsed) := not_lt.mpr hle
    have hsd : c2.score - c1.score = 0 := sub_eq_zero.mpr hsc.symm
    have hud : (usersByDomain candidates c1.domain : ℚ) -
        (usersByDomain candidates c2.domain : ℚ) ≠ 0 :=
      sub_ne_zero.mpr (by exact_mod_cast hus)
    simp [compareCandidates, hnlt, hsd, hud]
  · have hnlt : ¬ 1500 < absQ (c1.elapsed - c2.elapsed) := not_lt.mpr hle
    have hsd : c2.score - c1.score = 0 := sub_eq_zero.mpr hsc.symm
    have hud : (usersByDomain candidates c1.domain : ℚ) -
        (usersByDomain candidates c2.domain : ℚ) = 0 :=
      sub_eq_zero.mpr (by exact_mod_cast hus)
    simp [compareCandidates, hnlt, hsd, hud]
  · simp [pickCatalystRealm, hs]

/-- Witness for `pickCatalystRealm_comparator_spec`: with a latency gap of
1900 ms the comparator returns the elapsed difference. -/
theorem pickCatalystRealm_comparator_spec_witness :
    compareCandidates [cFast, cSlow] cFast cSlow = cFast.elapsed - cSlow.elapsed :=
  (pickCatalystRealm_comparator_spec [cFast, cSlow] cFast cSlow (by decide) (by decide)).1
    (by norm_num [absQ, cFast, cSlow])

/-- C2: every realm `pickCatalystRealm` succeeds with is built from a
candidate of the input whose connection status is `OK` and whose layer, if
any, is not full — unreachable candidates and full layers are filtered out
before sorting and so are never selected. -/
theorem pickCatalystRealm_filter_spec (candidates : List Candidate) (r : Realm)
    (h : pickCatalystRealm candidates = .ok r) :
    ∃ c ∈ candidates, r = candidateToRealm c ∧ c.status = .OK ∧
      ∀ l, c.kind = .layerBased l → l.usersCount < l.maxUsers := by
  unfold pickCatalystRealm at h
  cases hs : sortedCandidates candidates with
  | nil =>
    rw [hs] at h
    by_cases hne : candidates.isEmpty <;> simp [hne] at h
  | cons c rest =>
    rw [hs] at h
    simp at h
    have hc : c ∈ sortedCandidates candidates := by
      rw [hs]
      exact List.mem_cons_self c rest
    rw [sortedCandidates, List.mem_mergeSort, List.mem_filter] at hc
    obtain ⟨hmem, hpass⟩ := hc
    rw [passesFilter, Bool.and_eq_true] at hpass
    obtain ⟨hst, hkind⟩ := hpass
    refine ⟨c, hmem, h.symm, by simpa using hst, fun l hl => ?_⟩
    rw [hl] at hkind
    simpa using hkind

/-- Witness for `pickCatalystRealm_filter_spec` at a concrete single-candidate
list. -/
theorem pickCatalystRealm_filter_spec_witness :
    ∃ c ∈ [cSolo], candidateToRealm cSolo = candidateToRealm c ∧ c.status = .OK ∧
      ∀ l, c.kind = .layerBased l → l.usersCount < l.maxUsers :=
  pickCatalystRealm_filter_spec [cSolo] (candidateToRealm cSolo)
    (by simp [pickCatalystRealm, sortedCandidates, passesFilter, cSolo, List.filter])

/-- C3: `pickCatalystRealm` fails with the explicit no-realm-available error
exactly when the input was non-empty but nothing passed the filter; an
empty input also fails to return a realm, but through the distinct
undefined-candidate failure. -/
theorem pickCatalystRealm_noRealm_spec (candidates : List Candidate) :
    (pickCatalystRealm candidates = .error .noRealmAvailable ↔
      candidates ≠ [] ∧ candidates.filter passesFilter = []) ∧
    (candidates = [] →
      pickCatalystRealm candidates = .error .undefinedCandidate ∧
      ∀ r, pickCatalystRealm candidates ≠ .ok r) := by
  have hlen : (sortedCandidates candidates).length = (candidates.filter passesFilter).length :=
    List.length_mergeSort (candidates.filter passesFilter)
  have hnil : sortedCandidates candidates = [] ↔ candidates.filter passesFilter = [] := by
    rw [← List.length_eq_zero, ← List.length_eq_zero, hlen]
  constructor
  · constructor
    · intro h
      unfold pickCatalystRealm at h
      cases hs : sortedCandidates candidates with
      | nil =>
        rw [hs] at h
        by_cases hne : candidates.isEmpty
        · simp [hne] at h
        · exact ⟨by simpa using hne, hnil.mp hs⟩
      | cons c rest => rw [hs] at h; simp at h
    · rintro ⟨hne, hfil⟩
      have hs : sortedCandidates candidates = [] := hnil.mpr hfil
      have hemp : candidates.isEmpty = false := by simpa using hne
      simp [pickCatalystRealm, hs, hemp]
  · intro hc
    subst hc
    have hs : sortedCandidates [] = [] := hnil.mpr rfl
    constructor
    · simp [pickCatalystRealm, hs]
    · intro r
      simp [pickCatalystRealm, hs]

/-- Witness for `pickCatalystRealm_noRealm_spec`: a list holding only a full
layer fails with the explicit no-realm-available error. -/
theorem pickCatalystRealm_noRealm_spec_witness :
    pickCatalystRealm [cFullLayer] = .error .noRealmAvailable :=
  (pickCatalystRealm_noRealm_spec [cFullLayer]).1.mpr ⟨by decide, by decide⟩

/-- Splitting a dash-free character list returns it whole. -/
theorem splitDashChars_of_not_mem (l : List Char) (h : '-' ∉ l) : splitDashChars l = [l] := by
  induction l with
  | nil => rfl
  | cons ch rest ih =>
    have hch : ¬ ch = '-' := fun e => h (e ▸ List.mem_cons_self ch rest)
    have hrest : '-' ∉ rest := fun hm => h (List.mem_cons_of_mem ch hm)
    simp only [splitDashChars, if_neg hch, ih hrest]

/-- Splitting past a dash preceded by a dash-free prefix peels the prefix
off. -/
theorem splitDashChars_append (a b : List Char) (ha : '-' ∉ a) :
    splitDashChars (a ++ '-' :: b) = a :: splitDashChars b := by
  induction a with
  | nil => simp [splitDashChars]
  | cons ch rest ih =>
    have hch : ¬ ch = '-' := fun e => ha (e ▸ List.mem_cons_self ch rest)
    have hrest : '-' ∉ rest := fun hm => ha (List.mem_cons_of_mem ch hm)
    show splitDashChars (ch :: (rest ++ '-' :: b)) = (ch :: rest) :: splitDashChars b
    rw [splitDashChars, if_neg hch, ih hrest]

/-- A dash-free string splits into itself alone. -/
theorem splitDash_no_dash (s : String) (h : '-' ∉ s.data) : splitDash s = [s] := by
  simp [splitDash, splitDashChars_of_not_mem s.data h]

/-- A string formatted as `a ++ "-" ++ b` from dash-free parts splits into
exactly those parts. -/
theorem splitDash_pair (a b : String) (ha : '-' ∉ a.data) (hb : '-' ∉ b.data) :
    splitDash (a ++ "-" ++ b) = [a, b] := by
  have hdata : (a ++ "-" ++ b).data = a.data ++ '-' :: b.data := by
    simp [String.data_append]
  rw [splitDash, hdata, splitDashChars_append a.data b.data ha,
    splitDashChars_of_not_mem b.data hb]
  rfl

/-- C8 counterexample: the realm of an islands-based candidate whose
catalyst name contains a dash does not round-trip — its canonical string
parses as a layer-based lookup and yields nothing. -/
theorem realmString_roundTrip_cex :
    candidateToRealm hyphenCandidate ∈ [hyphenCandidate].map candidateToRealm ∧
    getRealmFromString (realmToString (candidateToRealm hyphenCandidate)) [hyphenCandidate] ≠
      some (candidateToRealm hyphenCandidate) := by
  constructor
  · simp
  · decide

/-- C8 amended: the RealmString encoding round-trips for every realm whose
catalyst name (and layer name, when present) is dash-free and which is the
realm of the first candidate matching its key in the list. -/
theorem realmString_roundTrip_amended (r : Realm) (candidates : List Candidate)
    (hdash : '-' ∉ r.catalystName.data) :
    (r.layer = none → realmFor r.catalystName candidates = some r →
      getRealmFromString (realmToString r) candidates = some r) ∧
    (∀ layerName, r.layer = some layerName → '-' ∉ layerName.data →
      realmForLayer r.catalystName layerName candidates = some r →
      getRealmFromString (realmToString r) candidates = some r) := by
  constructor
  · intro hl hfind
    have hfmt : realmToString r = r.catalystName := by simp [realmToString, hl]
    have hsp : splitDash r.catalystName = [r.catalystName] := splitDash_no_dash _ hdash
    rw [hfmt, getRealmFromString]
    simp [hsp, hfind]
  · intro ln hl hlnd hfind
    have hfmt : realmToString r = r.catalystName ++ "-" ++ ln := by simp [realmToString, hl]
    have hsp := splitDash_pair r.catalystName ln hdash hlnd
    rw [hfmt, getRealmFromString]
    simp [hsp, hfind]

/-- Witness for `realmString_roundTrip_amended`: a dash-free islands realm
round-trips through its canonical string. -/
theorem realmString_roundTrip_amended_witness :
    getRealmFromString (realmToString (candidateToRealm plainCandidate)) [plainCandidate] =
      some (candidateToRealm plainCandidate) :=
  (realmString_roundTrip_amended (candidateToRealm plainCandidate) [plainCandidate]
    (by decide)).1 rfl (by decide)

/-- A running maximum never drops below its starting value. -/
theorem foldl_max_init_le (g : Candidate → ℤ) (l : List Candidate) :
    ∀ b : ℤ, b ≤ l.foldl (fun m c => max m (g c)) b := by
  induction l with
  | nil => intro b; exact le_refl b
  | cons c t ih => intro b; exact le_trans (le_max_left b (g c)) (ih (max b (g c)))

/-- A running maximum stays below a bound dominating its start and every
entry. -/
theorem foldl_max_le (g : Candidate → ℤ) (K : ℤ) (l : List Candidate) :
    (∀ c ∈ l, g c ≤ K) → ∀ b, b ≤ K → l.foldl (fun m c => max m (g c)) b ≤ K := by
  induction l with
  | nil => intro _ b hb; exact hb
  | cons c t ih =>
    intro h b hb
    exact ih (fun x hx => h x (List.mem_cons_of_mem c hx)) (max b (g c))
      (max_le hb (h c (List.mem_cons_self c t)))

/-- The `forEach` scan of `changeToCrowdedRealm`, characterised: over a list
of layer-based candidates with known parcels, the final count is the
running maximum of the per-candidate counts, the starting realm survives
exactly when nothing exceeds the baseline, and otherwise the winner is the
first candidate attaining the maximum. -/
theorem crowdedFold_char (cur : Realm) (pos : ℤ × ℤ) (l : List Candidate) :
    (∀ c ∈ l, ∃ lay ps, c.kind = .layerBased lay ∧ lay.usersParcels = some ps) →
    ∀ (r0 : Realm) (b : ℤ),
      (l.foldl (crowdedStep cur pos) ⟨r0, b⟩).closePeople =
        l.foldl (fun m c => max m (closePeopleOf cur pos c)) b ∧
      (l.foldl (fun m c => max m (closePeopleOf cur pos c)) b ≤ b →
        (l.foldl (crowdedStep cur pos) ⟨r0, b⟩).realm = r0) ∧
      (b < l.foldl (fun m c => max m (closePeopleOf cur pos c)) b →
        ∃ c, (l.find? fun x => decide (closePeopleOf cur pos x =
              l.foldl (fun m c => max m (closePeopleOf cur pos c)) b)) = some c ∧
          (l.foldl (crowdedStep cur pos) ⟨r0, b⟩).realm = candidateToRealm c) := by
  induction l with
  | nil =>
    intro _ r0 b
    exact ⟨rfl, fun _ => rfl, fun hb => absurd hb (lt_irrefl b)⟩
  | cons c t ih =>
    intro hall r0 b
    obtain ⟨lay, ps, hkind, hps⟩ := hall c (List.mem_cons_self c t)
    have hall' : ∀ x ∈ t, ∃ lay ps, x.kind = .layerBased lay ∧ lay.usersParcels = some ps :=
      fun x hx => hall x (List.mem_cons_of_mem c hx)
    have hstep : crowdedStep cur pos ⟨r0, b⟩ c =
        if b < closePeopleOf cur pos c then ⟨candidateToRealm c, closePeopleOf cur pos c⟩
        else ⟨r0, b⟩ := by
      simp [crowdedStep, hkind, hps, closePeopleOf]
    have hfold : (c :: t).foldl (crowdedStep cur pos) ⟨r0, b⟩ =
        t.foldl (crowdedStep cur pos) (crowdedStep cur pos ⟨r0, b⟩ c) := rfl
    have hmax : (c :: t).foldl (fun m x => max m (closePeopleOf cur pos x)) b =
        t.foldl (fun m x => max m (closePeopleOf cur pos x)) (max b (closePeopleOf cur pos c)) :=
      rfl
    by_cases hbn : b < closePeopleOf cur pos c
    · have hmaxbn : max b (closePeopleOf cur pos c) = closePeopleOf cur pos c :=
        max_eq_right (le_of_lt hbn)
      obtain ⟨ih1, ih2, ih3⟩ := ih hall' (candidateToRealm c) (closePeopleOf cur pos c)
      have hinit : closePeopleOf cur pos c ≤
          t.foldl (fun m x => max m (closePeopleOf cur pos x)) (closePeopleOf cur pos c) :=
        foldl_max_init_le _ t _
      rw [hfold, hmax, hstep, if_pos hbn, hmaxbn]
      refine ⟨ih1, fun hM => absurd (lt_of_lt_of_le hbn (le_trans hinit hM)) (lt_irrefl b), ?_⟩
      intro _
      by_cases hMn : t.foldl (fun m x => max m (closePeopleOf cur pos x))
          (closePeopleOf cur pos c) ≤ closePeopleOf cur pos c
      · have hMeq : t.foldl (fun m x => max m (closePeopleOf cur pos x))
            (closePeopleOf cur pos c) = closePeopleOf cur pos c := le_antisymm hMn hinit
        refine ⟨c, ?_, ih2 hMn⟩
        exact List.find?_cons_of_pos t (by simp [hMeq])
      · obtain ⟨c', hfind, hrealm⟩ := ih3 (not_le.mp hMn)
        refine ⟨c', ?_, hrealm⟩
        rw [List.find?_cons_of_neg t (by simp; omega)]
        exact hfind
    · have hnb : closePeopleOf cur pos c ≤ b := not_lt.mp hbn
      have hmaxbn : max b (closePeopleOf cur pos c) = b := max_eq_left hnb
      obtain ⟨ih1, ih2, ih3⟩ := ih hall' r0 b
      rw [hfold, hmax, hstep, if_neg hbn, hmaxbn]
      refine ⟨ih1, ih2, ?_⟩
      intro hbM
      obtain ⟨c', hfind, hrealm⟩ := ih3 hbM
      refine ⟨c', ?_, hrealm⟩
      rw [List.find?_cons_of_neg t (by simp; omega)]
      exact hfind

/-- The filter of `changeToCrowdedRealm`, spelled out. -/
theorem isCrowdedCandidate_iff (c : Candidate) :
    isCrowdedCandidate c = true ↔
      ∃ l, c.kind = .layerBased l ∧
        (∃ parcels, l.usersParcels = some parcels ∧ parcels ≠ []) ∧
        l.usersCount < l.maxUsers := by
  cases hk : c.kind with
  | islandsBased u => simp [isCrowdedCandidate, hk]
  | layerBased l =>
    cases hp : l.usersParcels with
    | none => simp [isCrowdedCandidate, hk, hp]
    | some ps => simp [isCrowdedCandidate, hk, hp]

/-- C6 counterexample: a considered candidate holding the maximum count (0,
its only user being far away) whose realm differs from the current one, yet
the code stays on the current realm and publishes nothing, while the claim
as stated migrates. -/
theorem changeToCrowdedRealm_cex :
    changeToCrowdedRealm [c6Candidate] c6CurrentRealm (0, 0) =
      ((false, c6CurrentRealm), none) ∧
    changeToCrowdedRealmClaimed [c6Candidate] c6CurrentRealm (0, 0) =
      ((true, candidateToRealm c6Candidate), some (candidateToRealm c6Candidate)) := by
  constructor
  · decide
  · decide

/-- C6 amended: `changeToCrowdedRealm` considers exactly the layer-based
candidates with a known non-empty parcel list and remaining capacity; when
no considered candidate counts strictly more than 0 close people it keeps
the current realm and publishes nothing, and otherwise the first candidate
attaining the maximum count wins — migrating (publish + `[true, new]`)
exactly when its realm differs structurally from the current one. -/
theorem changeToCrowdedRealm_spec (candidates : List Candidate) (currentRealm : Realm)
    (currentPosition : ℤ × ℤ) :
    (∀ c, c ∈ candidates.filter isCrowdedCandidate ↔
      (c ∈ candidates ∧ ∃ l, c.kind = .layerBased l ∧
        (∃ parcels, l.usersParcels = some parcels ∧ parcels ≠ []) ∧
        l.usersCount < l.maxUsers)) ∧
    ((∀ c ∈ candidates.filter isCrowdedCandidate,
        closePeopleOf currentRealm currentPosition c ≤ 0) →
      changeToCrowdedRealm candidates currentRealm currentPosition =
        ((false, currentRealm), none)) ∧
    (0 < crowdedBestCount candidates currentRealm currentPosition →
      ∃ c, ((candidates.filter isCrowdedCandidate).find? fun x =>
          decide (closePeopleOf currentRealm currentPosition x =
            crowdedBestCount candidates currentRealm currentPosition)) = some c ∧
        changeToCrowdedRealm candidates currentRealm currentPosition =
          (if candidateToRealm c = currentRealm then ((false, currentRealm), none)
           else ((true, candidateToRealm c), some (candidateToRealm c)))) := by
  have hfilterOk : ∀ c ∈ candidates.filter isCrowdedCandidate,
      ∃ lay ps, c.kind = .layerBased lay ∧ lay.usersParcels = some ps := by
    intro c hc
    rw [List.mem_filter] at hc
    obtain ⟨l, hk, ⟨parcels, hps, -⟩, -⟩ := (isCrowdedCandidate_iff c).mp hc.2
    exact ⟨l, parcels, hk, hps⟩
  obtain ⟨h1, h2, h3⟩ := crowdedFold_char currentRealm currentPosition
    (candidates.filter isCrowdedCandidate) hfilterOk currentRealm 0
  refine ⟨fun c => ?_, fun hle => ?_, fun hpos => ?_⟩
  · rw [List.mem_filter, isCrowdedCandidate_iff]
  · have hM : (candidates.filter isCrowdedCandidate).foldl
        (fun m c => max m (closePeopleOf currentRealm currentPosition c)) 0 ≤ 0 :=
      foldl_max_le _ 0 _ hle 0 le_rfl
    have hrealm := h2 hM
    simp [changeToCrowdedRealm, hrealm]
  · rw [crowdedBestCount] at hpos
    obtain ⟨c, hfind, hrealm⟩ := h3 hpos
    rw [crowdedBestCount]
    refine ⟨c, hfind, ?_⟩
    by_cases hr : candidateToRealm c = currentRealm
    · rw [if_pos hr]
      simp [changeToCrowdedRealm, hrealm, hr]
    · rw [if_neg hr]
      simp [changeToCrowdedRealm, hrealm, hr]

/-- Witness for `changeToCrowdedRealm_spec`: with the only considered
candidate counting 0 close people, the player stays on the current realm. -/
theorem changeToCrowdedRealm_spec_witness :
    changeToCrowdedRealm [c6Candidate] c6CurrentRealm (0, 0) =
      ((false, c6CurrentRealm), none) :=
  (changeToCrowdedRealm_spec [c6Candidate] c6CurrentRealm (0, 0)).2.1 (by decide)

end Dao
